import Mathlib

/-!
Verification of the bsure-chatbot-panel dashboard chat widget.

The development shallowly embeds the TypeScript source of the panel
(SimplePanel component): the Row Normalizer (convertGrafanaDataToJson),
the Dashboard Query Extractor (convertDashboardData), the Query Executor
(queryDataSource), the Context Assembler and Conversation Controller
(submitQuestion), the dashboard metadata fetch (fetchDashboard) and the
completion call (fetchGroqData).

JavaScript values that may be undefined are embedded as Option; a thrown
exception or a rejected promise is an Except error. External collaborators
(backend service, data source registry, the response stream, the completion
service) are embedded as explicit outcome parameters supplied to each run.
-/

set_option autoImplicit false

namespace BsureChat

universe u

variable {α : Type u}

/-- One field of a columnar response frame: a name plus an optional parallel
values array. A missing values array models a JS field object without a
values property. -/
structure Field (α : Type u) where
  name : String
  values : Option (List α)
deriving DecidableEq

/-- One response frame, exposing an optional field list. The entries of the
field list are themselves optional, modelling holes or undefined entries in
the JS array. -/
structure Frame (α : Type u) where
  fields : Option (List (Option (Field α)))
deriving DecidableEq

/-- A normalized row: an ordered mapping from column name to an optional
cell value, as built by JS property assignment on a fresh object. A none
value models the JS undefined obtained by reading past the end of a values
array. -/
abbrev Row (α : Type u) := List (String × Option α)

/-- JS property assignment on an object embedded as an ordered
association list: an existing key is overwritten in place, a new key is
appended at the end. -/
def objSet (row : Row α) (k : String) (v : Option α) : Row α :=
  if row.any (fun p => p.1 = k) then
    row.map (fun p => if p.1 = k then (k, v) else p)
  else
    row ++ [(k, v)]

/-- One iteration of the row-building loop of convertGrafanaDataToJson:
for each field, row[field.name] = field.values[i]. A hole in the field list
or a field without a values array makes the loop body throw (reading a
property of undefined), embedded as an Except error. -/
def buildRow (i : Nat) : List (Option (Field α)) → Row α → Except Unit (Row α)
  | [], row => Except.ok row
  | none :: _, _ => Except.error ()
  | some f :: rest, row =>
    match f.values with
    | none => Except.error ()
    | some vs => buildRow i rest (objSet row f.name vs[i]?)

/-- The outer loop of convertGrafanaDataToJson: build rows for indices
i, i+1, ..., i+count-1 in order, propagating a thrown exception. -/
def buildRows (fields : List (Option (Field α))) : Nat → Nat → Except Unit (List (Row α))
  | 0, _ => Except.ok []
  | count + 1, i => do
    let r ← buildRow i fields []
    let rest ← buildRows fields count (i + 1)
    Except.ok (r :: rest)

/-- Row count, taken from the first field of the given field list only:
fields[0]?.values?.length || 0. -/
def rowCountOf (fields : List (Option (Field α))) : Nat :=
  match fields.head? with
  | some (some f) => (f.values.map List.length).getD 0
  | _ => 0

/-- Embedding of convertGrafanaDataToJson. The input none models a value
that is falsy or not an array; a frame entry none models a hole; a frame
with fields none models a frame whose fields property is missing or not an
array. The Except error is a thrown TypeError inside the row loop. -/
def convertGrafanaDataToJson (data : Option (List (Option (Frame α)))) :
    Except Unit (List (Row α)) :=
  match data with
  | none => Except.ok []
  | some frames =>
    match frames.head? with
    | none => Except.ok []
    | some none => Except.ok []
    | some (some fr0) =>
      match fr0.fields with
      | none => Except.ok []
      | some fields => buildRows fields (rowCountOf fields) 0

/-! ### Basic lemmas about the normalizer -/

/-- Setting a fresh key appends it at the end of the row. -/
theorem objSet_fresh (row : Row α) (k : String) (v : Option α)
    (h : ∀ p ∈ row, p.1 ≠ k) : objSet row k v = row ++ [(k, v)] := by
  unfold objSet
  have : row.any (fun p => p.1 = k) = false := by
    simp only [List.any_eq_false]
    intro p hp
    simpa using h p hp
  simp [this]

/-- A clean field list: every entry present, with a values array. -/
def cleanFields (fs : List (String × List α)) : List (Option (Field α)) :=
  fs.map (fun p => some ⟨p.1, some p.2⟩)

/-- The row built from a clean field list with pairwise distinct names is
the positional record of the fields at index i, appended after the
accumulator, provided the accumulator avoids those names. -/
theorem buildRow_clean (i : Nat) (fs : List (String × List α)) (acc : Row α)
    (hnd : (fs.map Prod.fst).Nodup)
    (hdisj : ∀ p ∈ acc, ∀ q ∈ fs, p.1 ≠ q.1) :
    buildRow i (cleanFields fs) acc =
      Except.ok (acc ++ fs.map (fun p => (p.1, p.2[i]?))) := by
  induction fs generalizing acc with
  | nil => simp [cleanFields, buildRow]
  | cons q rest ih =>
    have hfresh : ∀ p ∈ acc, p.1 ≠ q.1 := fun p hp => hdisj p hp q (by simp)
    have hnd' : (rest.map Prod.fst).Nodup := by
      simpa using hnd.of_cons
    have hqrest : ∀ r ∈ rest, q.1 ≠ r.1 := by
      intro r hr hEq
      have hnotmem : q.1 ∉ rest.map Prod.fst := by
        have hc := hnd
        simp only [List.map_cons, List.nodup_cons] at hc
        exact hc.1
      exact hnotmem (hEq ▸ List.mem_map_of_mem Prod.fst hr)
    have hdisj' : ∀ p ∈ acc ++ [(q.1, q.2[i]?)], ∀ r ∈ rest, p.1 ≠ r.1 := by
      intro p hp r hr
      rcases List.mem_append.mp hp with hp | hp
      · exact hdisj p hp r (by simp [hr])
      · simp only [List.mem_singleton] at hp
        subst hp
        exact hqrest r hr
    have hstep : cleanFields (q :: rest) =
        some ⟨q.1, some q.2⟩ :: cleanFields rest := rfl
    rw [hstep]
    show buildRow i (cleanFields rest) (objSet acc q.1 (q.2[i]?)) = _
    rw [objSet_fresh acc q.1 (q.2[i]?) hfresh]
    rw [ih (acc ++ [(q.1, q.2[i]?)]) hnd' hdisj']
    simp

/-- If every row build succeeds pointwise, the outer loop returns the rows
for the index range in order. -/
theorem buildRows_ok (fields : List (Option (Field α))) (f : Nat → Row α)
    (count i : Nat)
    (h : ∀ j, i ≤ j → j < i + count → buildRow j fields [] = Except.ok (f j)) :
    buildRows fields count i = Except.ok ((List.range' i count).map f) := by
  induction count generalizing i with
  | zero => simp [buildRows]
  | succ n ih =>
    have h0 : buildRow i fields [] = Except.ok (f i) :=
      h i (Nat.le_refl i) (by omega)
    have hrest : buildRows fields n (i + 1) =
        Except.ok ((List.range' (i + 1) n).map f) := by
      apply ih
      intro j hj1 hj2
      exact h j (by omega) (by omega)
    simp only [buildRows, h0, hrest, List.range'_succ, List.map_cons]
    rfl

/-! ### Dashboard Query Extractor (convertDashboardData) -/

/-- The Target interface of the source: every field optional. The same type
is used for raw dashboard targets and for the descriptors emitted by the
extractor (which fills every field). -/
structure Target where
  datasource : Option String := none
  rawSql : Option String := none
  refId : Option String := none
  format : Option String := none
  title : Option String := none
  description : Option String := none
deriving DecidableEq

/-- The Panel interface of the source: an optional target list plus
optional display metadata. -/
structure Panel where
  targets : Option (List Target) := none
  title : Option String := none
  description : Option String := none
deriving DecidableEq

/-- JS truthiness of an optional string: undefined and the empty string are
falsy, every other string is truthy. -/
def jsTruthyStr : Option String → Bool
  | none => false
  | some s => s ≠ ""

/-- The descriptor pushed by convertDashboardData for one target of one
panel, with the nullish-coalescing defaults of the source. -/
def mkDescriptor (panel : Panel) (target : Target) : Target where
  datasource := some (target.datasource.getD "Unknown")
  rawSql := some (target.rawSql.getD "")
  refId := some (target.refId.getD "")
  format := some (target.format.getD "")
  title := some (panel.title.getD "")
  description := some (panel.description.getD "")

/-- The nested loop of convertDashboardData over an array of panels:
panels without a target list are skipped, each target of the others pushes
one descriptor. -/
def extractTargets (panels : List Panel) : List Target :=
  panels.foldl
    (fun response panel =>
      match panel.targets with
      | none => response
      | some ts => response ++ ts.map (mkDescriptor panel))
    []

/-- Outcome of the external JSON parse applied to a serialized panel list:
the parse may throw, yield an array of panels, or yield a non-array value. -/
inductive ParseResult where
  | fail
  | arr (ps : List Panel)
  | nonArr
deriving DecidableEq

/-- The argument of convertDashboardData: an array of panels, a string
(together with what the external JSON parse yields on it), or any other
value. -/
inductive PanelsValue where
  | arr (ps : List Panel)
  | str (parse : ParseResult)
  | other
deriving DecidableEq

/-- Embedding of convertDashboardData: a string input is parsed (a parse
failure is caught and yields the empty list), a non-array value yields the
empty list, and an array is flattened by extractTargets. -/
def convertDashboardData : PanelsValue → List Target
  | PanelsValue.arr ps => extractTargets ps
  | PanelsValue.str ParseResult.fail => []
  | PanelsValue.str (ParseResult.arr ps) => extractTargets ps
  | PanelsValue.str ParseResult.nonArr => []
  | PanelsValue.other => []

/-- The per-panel contribution to the extractor output. -/
def panelDescriptors (panel : Panel) : List Target :=
  (panel.targets.getD []).map (mkDescriptor panel)

/-- The extractor output in explicit panel-then-target order. -/
def extractAll : List Panel → List Target
  | [] => []
  | panel :: rest => panelDescriptors panel ++ extractAll rest

/-- The push-loop form of the extractor equals the explicit ordered
concatenation, for any initial accumulator. -/
theorem extractTargets_go (panels : List Panel) (acc : List Target) :
    panels.foldl
      (fun response panel =>
        match panel.targets with
        | none => response
        | some ts => response ++ ts.map (mkDescriptor panel))
      acc = acc ++ extractAll panels := by
  induction panels generalizing acc with
  | nil => simp [extractAll]
  | cons panel rest ih =>
    simp only [List.foldl_cons, extractAll]
    cases h : panel.targets with
    | none =>
      rw [ih acc]
      simp [panelDescriptors, h]
    | some ts =>
      rw [ih (acc ++ ts.map (mkDescriptor panel))]
      simp [panelDescriptors, h]

/-- extractTargets is the ordered concatenation of per-panel descriptor
lists. -/
theorem extractTargets_eq_extractAll (panels : List Panel) :
    extractTargets panels = extractAll panels := by
  simpa using extractTargets_go panels []

/-! ### Query Executor (queryDataSource) -/

/-- The value type of normalized cells in the executor pipeline; cell
values are opaque to the widget, so a fixed countable type suffices for the
embedding. -/
abbrev Val := Nat

/-- A single target of the query request issued by queryDataSource. -/
structure ReqTarget where
  refId : String
  rawSql : String
  format : String
deriving DecidableEq

/-- The time range of the query request, in milliseconds since epoch. -/
structure TimeRange where
  fromTime : Nat
  toTime : Nat
deriving DecidableEq

/-- The query request issued by queryDataSource to the resolved data
source. -/
structure QueryRequest where
  targets : List ReqTarget
  range : TimeRange
  intervalMs : Nat
  maxDataPoints : Nat
  scopedVars : List (String × String)
  timezone : String
deriving DecidableEq

/-- The request constructed by queryDataSource from a target, given the
current clock value in milliseconds: a single target with nullish-coalesced
defaults, the last hour as range, interval 60000 ms, max 500 data points,
empty scoped variables and browser timezone. -/
def buildQueryRequest (target : Target) (now : Nat) : QueryRequest where
  targets := [{ refId := target.refId.getD "A"
                rawSql := target.rawSql.getD ""
                format := target.format.getD "table" }]
  range := { fromTime := now - 3600 * 1000, toTime := now }
  intervalMs := 60000
  maxDataPoints := 500
  scopedVars := []
  timezone := "browser"

/-- Environment outcome for one queryDataSource run: the data source
registry or the query call may reject (caught by the surrounding try), the
response stream may signal an error before emitting (which rejects the
returned promise, uncaught), or the stream emits a first batch of response
data. -/
inductive DSOutcome where
  | resolveFail
  | streamError
  | streamNext (respData : Option (List (Option (Frame Val))))

/-- Observable result of one queryDataSource run: the returned promise
resolves with undefined or null (missing datasource, or a caught resolution
or query failure), rejects (stream error), never settles (the normalizer
threw inside the next callback, so resolve is never reached), or resolves
with normalized rows. -/
inductive QDSResult where
  | undef
  | rejected
  | hanged
  | resolved (rows : List (Row Val))
deriving DecidableEq

/-- Embedding of queryDataSource, parameterized by the environment outcome.
The request it would issue is buildQueryRequest; the outcome abstracts the
external registry, the data source and its response stream. -/
def queryDataSource (target : Target) (outcome : DSOutcome) : QDSResult :=
  if jsTruthyStr target.datasource = false then QDSResult.undef
  else
    match outcome with
    | DSOutcome.resolveFail => QDSResult.undef
    | DSOutcome.streamError => QDSResult.rejected
    | DSOutcome.streamNext respData =>
      match convertGrafanaDataToJson respData with
      | Except.error _ => QDSResult.hanged
      | Except.ok rows => QDSResult.resolved rows

/-! ### Context Assembler (the Promise.all fan-out in submitQuestion) -/

/-- One element of the newPanelData array assembled in submitQuestion. -/
structure PanelData where
  title : Option String
  description : Option String
  result : Option (List (Row Val))
deriving DecidableEq

/-- The object literal built for one settled query: title and description
from the descriptor, and the resolved rows (a resolved undefined or null
query result is carried as none). -/
def toPanelData (target : Target) (r : QDSResult) : PanelData where
  title := target.title
  description := target.description
  result := match r with
    | QDSResult.resolved rows => some rows
    | _ => none

/-- Run the executor over a descriptor list, the environment indexed by
position in the list (starting at i). -/
def runQueries (ds : Nat → DSOutcome) : List Target → Nat → List QDSResult
  | [], _ => []
  | t :: ts, i => queryDataSource t (ds i) :: runQueries ds ts (i + 1)

def isRejectedQ : QDSResult → Bool
  | QDSResult.rejected => true
  | _ => false

def isHangedQ : QDSResult → Bool
  | QDSResult.hanged => true
  | _ => false

/-- Outcome of the Promise.all over the per-target query promises: it
rejects as soon as any constituent rejects, stays pending if none rejects
but one never settles, and otherwise resolves with the panel data list. -/
inductive AsmResult where
  | rejected
  | pending
  | ok (panels : List PanelData)
deriving DecidableEq

/-- The filter applied to the extracted descriptors before the fan-out:
only targets with a truthy rawSql are executed. -/
def filteredDescriptors (targets : List Target) : List Target :=
  targets.filter (fun t => jsTruthyStr t.rawSql)

/-- Embedding of the context assembly in submitQuestion: filter the
descriptors to those with a truthy rawSql, run the executor over each, and
join the results with Promise.all semantics. -/
def assembleNewPanelData (targets : List Target) (ds : Nat → DSOutcome) : AsmResult :=
  if (runQueries ds (filteredDescriptors targets) 0).any isRejectedQ then
    AsmResult.rejected
  else if (runQueries ds (filteredDescriptors targets) 0).any isHangedQ then
    AsmResult.pending
  else
    AsmResult.ok (List.zipWith toPanelData (filteredDescriptors targets)
      (runQueries ds (filteredDescriptors targets) 0))

theorem runQueries_length (ds : Nat → DSOutcome) (ts : List Target) (i : Nat) :
    (runQueries ds ts i).length = ts.length := by
  induction ts generalizing i with
  | nil => rfl
  | cons t rest ih => simp [runQueries, ih]

/-! ### Dashboard fetch (fetchDashboard) -/

/-- Except catch combinator, embedding a try/catch around a possibly
rejecting computation. -/
def catchE {β : Type} (x : Except Unit β) (handler : Unit → Except Unit β) :
    Except Unit β :=
  match x with
  | Except.ok b => Except.ok b
  | Except.error e => handler e

/-- Embedding of fetchDashboard: a falsy dashboard UID short-circuits to
the empty list; otherwise the backend metadata request is awaited (it may
reject, or resolve with the panels value handed to convertDashboardData);
the surrounding try/catch maps any rejection to the empty list. -/
def fetchDashboard (dashboardUID : Option String)
    (backendResult : Except Unit PanelsValue) : Except Unit (List Target) :=
  catchE
    (if jsTruthyStr dashboardUID = false then Except.ok []
     else
       match backendResult with
       | Except.error e => Except.error e
       | Except.ok pv => Except.ok (convertDashboardData pv))
    (fun _ => Except.ok [])

/-- JS falsiness of the array resolved by fetchDashboard: an array is an
object and objects are never falsy, so the negation tested by the guard in
submitQuestion is constantly false. -/
def jsFalsyArray (_dashboardData : List Target) : Bool :=
  false

/-! ### Conversation Controller (submitQuestion, fetchGroqData) -/

/-- The Message interface of the source. -/
structure Message where
  content : String
  role : String
deriving DecidableEq

/-- Rendering of one cell by the external JSON serializer. -/
def serializeCell : Option Val → String
  | none => "null"
  | some n => toString n

/-- Rendering of one normalized row by the external JSON serializer. -/
def serializeRow (r : Row Val) : String :=
  String.intercalate ", " (r.map (fun p => p.1 ++ ": " ++ serializeCell p.2))

/-- Rendering of one query result by the external JSON serializer. -/
def serializeResult : Option (List (Row Val)) → String
  | none => "null"
  | some rows => "[" ++ String.intercalate "; " (rows.map serializeRow) ++ "]"

/-- Models the host JSON.stringify rendering of the assembled panel data.
The claims depend only on this serialization being embedded verbatim in the
system message, not on its exact text. -/
def serializePanelData (pd : List PanelData) : String :=
  "[" ++
    String.intercalate " | "
      (pd.map (fun p =>
        "(title: " ++ p.title.getD "null" ++
        ", description: " ++ p.description.getD "null" ++
        ", result: " ++ serializeResult p.result ++ ")")) ++
  "]"

/-- The user message object built from the current input buffer. -/
def userMessage (input : String) : Message where
  content := input
  role := "user"

/-- The system message synthesized on the first turn: the configured
preamble, a fixed connective, and the serialized dashboard context. -/
def systemMessage (preamble : String) (pd : List PanelData) : Message where
  content := preamble ++ " This is the data on the dashboard: " ++
    serializePanelData pd ++ "."
  role := "system"

/-- The widget state touched by submitQuestion: the input buffer and the
transcript. -/
structure PanelState where
  inputValue : String
  chat : List Message
deriving DecidableEq

/-- The environment of one submitQuestion run: the dashboard UID from the
panel request context, the backend metadata outcome, and the per-query
data source outcomes (indexed by position among the filtered descriptors). -/
structure SubmitEnv where
  dashboardUID : Option String
  backendResult : Except Unit PanelsValue
  ds : Nat → DSOutcome

/-- Observable outcome of one submitQuestion run: the async function
rejects without touching the state (an uncaught Promise.all rejection),
never settles, returns through the falsy-dashboard guard, or completes with
the new state and the message list dispatched to the completion service. -/
inductive SubmitResult where
  | aborted
  | hung
  | returnedEarly
  | completed (st : PanelState) (request : List Message)
deriving DecidableEq

/-- Embedding of submitQuestion. On an empty transcript it assembles the
dashboard context, sets the transcript to the system and user messages and
dispatches both; on a non-empty transcript it appends one user message and
dispatches the whole transcript; in both completing branches the input
buffer is cleared last. -/
def submitQuestion (st : PanelState) (e : SubmitEnv) (preamble : String) :
    SubmitResult :=
  match fetchDashboard e.dashboardUID e.backendResult with
  | Except.error _ => SubmitResult.aborted
  | Except.ok dashboardData =>
    if jsFalsyArray dashboardData then SubmitResult.returnedEarly
    else if st.chat.length = 0 then
      match assembleNewPanelData dashboardData e.ds with
      | AsmResult.rejected => SubmitResult.aborted
      | AsmResult.pending => SubmitResult.hung
      | AsmResult.ok newPanelData =>
        SubmitResult.completed
          { inputValue := "",
            chat := [systemMessage preamble newPanelData,
                     userMessage st.inputValue] }
          [systemMessage preamble newPanelData, userMessage st.inputValue]
    else
      SubmitResult.completed
        { inputValue := "", chat := st.chat ++ [userMessage st.inputValue] }
        (st.chat ++ [userMessage st.inputValue])

/-- Outcome of one completion-service call: the fetch may reject or the
response body may lack the expected shape (no assistant message is then
appended), or it yields the first choice message. -/
inductive GroqOutcome where
  | reject
  | ok (reply : Message)

/-- The request body posted to the completion service by fetchGroqData:
the configured model and the full message list. -/
structure GroqRequestBody where
  model : String
  messages : List Message
deriving DecidableEq

/-- fetchGroqData posts the full message list it is handed. -/
def buildGroqRequest (llmUsed : String) (messages : List Message) :
    GroqRequestBody where
  model := llmUsed
  messages := messages

/-- Effect of the completion response handler on the transcript: on
success the returned message is appended by a functional state update, on
failure the transcript is left unchanged. -/
def fetchGroqDataEffect (chat : List Message) : GroqOutcome → List Message
  | GroqOutcome.reject => chat
  | GroqOutcome.ok reply => chat ++ [reply]

/-- The message list rendered by the component: chat.slice(1), dropping
element 0. -/
def renderedChat (chat : List Message) : List Message :=
  chat.drop 1

/-- Transcripts reachable by the widget for a fixed configured preamble:
the empty initial transcript, the transcript after any completing
submitQuestion run, and the transcript after a successful completion
response was appended. A completion response can only arrive after some
submit dispatched a request, hence on a non-empty transcript. -/
inductive Reachable (preamble : String) : List Message → Prop
  | init : Reachable preamble []
  | submit (st : PanelState) (e : SubmitEnv) (st' : PanelState)
      (req : List Message) :
      Reachable preamble st.chat →
      submitQuestion st e preamble = SubmitResult.completed st' req →
      Reachable preamble st'.chat
  | groqReply (chat : List Message) (reply : Message) :
      Reachable preamble chat →
      chat ≠ [] →
      Reachable preamble (fetchGroqDataEffect chat (GroqOutcome.ok reply))

/-- Case analysis of a completing submitQuestion run: either the
transcript was empty and is set to the synthesized system message followed
by the user message, or it was non-empty and exactly one user message is
appended; the dispatched request is the new transcript in both cases. -/
theorem submitQuestion_completed (st : PanelState) (e : SubmitEnv)
    (preamble : String) (st' : PanelState) (req : List Message)
    (h : submitQuestion st e preamble = SubmitResult.completed st' req) :
    req = st'.chat ∧ st'.inputValue = "" ∧
    ((st.chat = [] ∧ ∃ pd,
        assembleNewPanelData
          ((fetchDashboard e.dashboardUID e.backendResult).toOption.getD [])
          e.ds = AsmResult.ok pd ∧
        st'.chat = [systemMessage preamble pd, userMessage st.inputValue]) ∨
     (st.chat ≠ [] ∧ st'.chat = st.chat ++ [userMessage st.inputValue])) := by
  unfold submitQuestion at h
  cases hfd : fetchDashboard e.dashboardUID e.backendResult with
  | error e0 => rw [hfd] at h; exact absurd h (by simp)
  | ok dashboardData =>
    rw [hfd] at h
    simp only [jsFalsyArray, if_false, Bool.false_eq_true] at h
    by_cases hc : st.chat.length = 0
    · have hnil : st.chat = [] := List.length_eq_zero.mp hc
      rw [if_pos hc] at h
      cases hasm : assembleNewPanelData dashboardData e.ds with
      | rejected => rw [hasm] at h; exact absurd h (by simp)
      | pending => rw [hasm] at h; exact absurd h (by simp)
      | ok pd =>
        rw [hasm] at h
        cases h
        refine ⟨rfl, rfl, Or.inl ⟨hnil, pd, ?_, rfl⟩⟩
        simpa using hasm
    · rw [if_neg hc] at h
      have hne : st.chat ≠ [] := by
        intro hnil; exact hc (by simp [hnil])
      cases h
      exact ⟨rfl, rfl, Or.inr ⟨hne, rfl⟩⟩

/-! ### Helper lemmas for the extractor claims -/

theorem panelDescriptors_length (p : Panel) :
    (panelDescriptors p).length = (p.targets.getD []).length := by
  simp [panelDescriptors]

theorem extractAll_length (panels : List Panel) :
    (extractAll panels).length =
      (panels.map (fun p => (p.targets.getD []).length)).sum := by
  induction panels with
  | nil => rfl
  | cons p rest ih => simp [extractAll, panelDescriptors, ih]

theorem extractAll_getElem (panels : List Panel) (i : Nat) (p : Panel)
    (ts : List Target) (j : Nat) (t : Target)
    (hp : panels[i]? = some p) (ht : p.targets = some ts)
    (htj : ts[j]? = some t) :
    (extractAll panels)[((panels.take i).map
        (fun q => (q.targets.getD []).length)).sum + j]? =
      some (mkDescriptor p t) := by
  induction panels generalizing i with
  | nil => simp at hp
  | cons q rest ih =>
    cases i with
    | zero =>
      simp only [List.getElem?_cons_zero, Option.some_inj] at hp
      subst hp
      simp only [List.take_zero, List.map_nil, List.sum_nil, Nat.zero_add]
      show (panelDescriptors q ++ extractAll rest)[j]? = _
      have hjts : j < ts.length := by
        by_contra hge
        push_neg at hge
        rw [List.getElem?_eq_none hge] at htj
        exact absurd htj (by simp)
      have hj : j < (panelDescriptors q).length := by
        rw [panelDescriptors_length, ht]
        simpa using hjts
      rw [List.getElem?_append, if_pos hj]
      simp [panelDescriptors, ht, htj]
    | succ i2 =>
      simp only [List.getElem?_cons_succ] at hp
      show (panelDescriptors q ++ extractAll rest)[_]? = _
      have hsum : (((q :: rest).take (i2 + 1)).map
          (fun r => (r.targets.getD []).length)).sum =
          (panelDescriptors q).length +
            ((rest.take i2).map (fun r => (r.targets.getD []).length)).sum := by
        simp [List.take_succ_cons, panelDescriptors_length]
      rw [hsum, Nat.add_assoc]
      rw [List.getElem?_append, if_neg (by omega)]
      have hidx : (panelDescriptors q).length +
          (((rest.take i2).map (fun r => (r.targets.getD []).length)).sum + j) -
          (panelDescriptors q).length =
          ((rest.take i2).map (fun r => (r.targets.getD []).length)).sum + j := by
        omega
      rw [hidx]
      exact ih i2 hp

theorem mem_extractAll (panels : List Panel) (p : Panel) (ts : List Target)
    (t : Target) (ht : p.targets = some ts) (hmem : t ∈ ts) :
    p ∈ panels → mkDescriptor p t ∈ extractAll panels := by
  induction panels with
  | nil => intro hp; simp at hp
  | cons q rest ih =>
    intro hp
    rcases List.mem_cons.mp hp with h | h
    · subst h
      have hin : mkDescriptor p t ∈ panelDescriptors p := by
        unfold panelDescriptors
        rw [ht]
        exact List.mem_map_of_mem (mkDescriptor p) hmem
      exact List.mem_append_left _ hin
    · exact List.mem_append_right _ (ih h)

/-! ### Claim theorems: Row Normalizer -/

/-- Claim C3: on a valid column-oriented input whose first frame has K
fields with distinct names, each with a values array, and whose first
field has R values, the normalizer returns exactly R records, each with
exactly K keys, record i mapping each field name to that field's value at
index i (reading past a shorter values array yields the missing value). -/
theorem claim_c3 {α : Type u} {R : Nat} (fs : List (String × List α))
    (rest : List (Option (Frame α))) (fd : String × List α)
    (hnd : (fs.map Prod.fst).Nodup) (hhead : fs.head? = some fd)
    (hR : fd.2.length = R) :
    convertGrafanaDataToJson (some (some ⟨some (cleanFields fs)⟩ :: rest)) =
      Except.ok ((List.range R).map (fun i => fs.map (fun p => (p.1, p.2[i]?)))) ∧
    ((List.range R).map (fun i => fs.map (fun p => (p.1, p.2[i]?)))).length = R ∧
    (∀ row ∈ (List.range R).map (fun i => fs.map (fun p => (p.1, p.2[i]?))),
      row.length = fs.length) := by
  have hrc : rowCountOf (cleanFields fs) = R := by
    cases fs with
    | nil => simp at hhead
    | cons q t =>
      simp only [List.head?_cons, Option.some_inj] at hhead
      subst hhead
      simp [rowCountOf, cleanFields, hR]
  have hrow : ∀ j, buildRow j (cleanFields fs) [] =
      Except.ok (fs.map (fun p => (p.1, p.2[j]?))) := by
    intro j
    simpa using buildRow_clean j fs [] hnd (by simp)
  refine ⟨?_, by simp, ?_⟩
  · show buildRows (cleanFields fs) (rowCountOf (cleanFields fs)) 0 = _
    rw [hrc,
      buildRows_ok (cleanFields fs) (fun i => fs.map (fun p => (p.1, p.2[i]?)))
        R 0 (fun j _ _ => hrow j),
      List.range_eq_range']
  · intro row hr
    obtain ⟨i, -, rfl⟩ := List.mem_map.mp hr
    simp

/-- Witness for C3 at a concrete two-field, two-row input. -/
theorem claim_c3_witness :
    convertGrafanaDataToJson
        (some [some ⟨some (cleanFields [("a", [1, 2]), ("b", [10, 20, 30])])⟩]) =
      Except.ok [[("a", some 1), ("b", some 10)], [("a", some 2), ("b", some 20)]] := by
  have h := (claim_c3 (R := 2) [("a", ([1, 2] : List Nat)), ("b", [10, 20, 30])]
    [] ("a", [1, 2]) (by decide) rfl rfl).1
  simpa using h

/-- Claim C10: the row count is taken solely from the first field of frame
0; if the field list is non-empty but its first entry is a hole or lacks a
values array, the row count is 0 and the normalizer returns the empty
sequence without raising, regardless of the remaining fields. -/
theorem claim_c10 {α : Type u} (fields : List (Option (Field α)))
    (rest : List (Option (Frame α)))
    (h : fields.head? = some none ∨
      ∃ nm, fields.head? = some (some ⟨nm, none⟩)) :
    rowCountOf fields = 0 ∧
    convertGrafanaDataToJson (some (some ⟨some fields⟩ :: rest)) =
      Except.ok [] ∧
    (∀ (f0 : Option (Field α)) (t1 t2 : List (Option (Field α))),
      rowCountOf (f0 :: t1) = rowCountOf (f0 :: t2)) := by
  have hrc : rowCountOf fields = 0 := by
    rcases h with h | ⟨nm, h⟩
    · unfold rowCountOf
      rw [h]
    · unfold rowCountOf
      rw [h]
      rfl
  refine ⟨hrc, ?_, fun f0 t1 t2 => rfl⟩
  show buildRows fields (rowCountOf fields) 0 = _
  rw [hrc]
  rfl

/-- Witness for C10: the first field has no values array while a later
field holds three values; the normalizer returns the empty sequence. -/
theorem claim_c10_witness :
    convertGrafanaDataToJson
        (some [some ⟨some [some ⟨"a", none⟩,
          some ⟨"b", some [(1 : Nat), 2, 3]⟩]⟩]) = Except.ok [] :=
  (claim_c10 [some ⟨"a", none⟩, some ⟨"b", some [(1 : Nat), 2, 3]⟩] []
    (Or.inr ⟨"a", rfl⟩)).2.1

/-! ### Claim theorems: Dashboard Query Extractor -/

/-- Claim C4: on a panel list with P panels and T total targets (a panel
without a target list contributing 0), the extractor emits exactly T
descriptors; the descriptor at the offset of panel i plus j is the one
built from panel i and its target j, so panel order and target order are
preserved. -/
theorem claim_c4 (panels : List Panel) :
    (extractTargets panels).length =
      (panels.map (fun p => (p.targets.getD []).length)).sum ∧
    (∀ (i : Nat) (p : Panel) (ts : List Target) (j : Nat) (t : Target),
      panels[i]? = some p → p.targets = some ts → ts[j]? = some t →
      (extractTargets panels)[((panels.take i).map
          (fun q => (q.targets.getD []).length)).sum + j]? =
        some (mkDescriptor p t)) := by
  constructor
  · rw [extractTargets_eq_extractAll]
    exact extractAll_length panels
  · intro i p ts j t hp ht htj
    rw [extractTargets_eq_extractAll]
    exact extractAll_getElem panels i p ts j t hp ht htj

/-- Witness for C4 on three panels: two targets, no target list, one
target; the extractor emits three descriptors and position 2 carries the
third panel's only target. -/
theorem claim_c4_witness :
    (extractTargets
        [{ targets := some [{ rawSql := some "q1" }, { rawSql := some "q2" }],
           title := some "A" },
         { title := some "B" },
         { targets := some [{ rawSql := some "q3" }], title := some "C" }]).length = 3 ∧
    (extractTargets
        [{ targets := some [{ rawSql := some "q1" }, { rawSql := some "q2" }],
           title := some "A" },
         { title := some "B" },
         { targets := some [{ rawSql := some "q3" }], title := some "C" }])[
      (([({ targets := some [{ rawSql := some "q1" }, { rawSql := some "q2" }],
            title := some "A" } : Panel),
          { title := some "B" },
          { targets := some [{ rawSql := some "q3" }], title := some "C" }].take 2).map
        (fun q => (q.targets.getD []).length)).sum + 0]? =
      some (mkDescriptor
        { targets := some [{ rawSql := some "q3" }], title := some "C" }
        { rawSql := some "q3" }) := by
  constructor
  · rw [(claim_c4 _).1]
    decide
  · exact (claim_c4 _).2 2 _ [{ rawSql := some "q3" }] 0 _ (by decide) rfl rfl

/-- Claim C6: every descriptor emitted by the extractor is in the output,
a missing datasource yields the sentinel Unknown, missing rawSql, refId or
format yield the empty string, and the owning panel's title and description
are carried over with empty-string defaults. -/
theorem claim_c6 (panels : List Panel) (p : Panel) (ts : List Target)
    (t : Target) (hp : p ∈ panels) (ht : p.targets = some ts) (hmem : t ∈ ts) :
    mkDescriptor p t ∈ extractTargets panels ∧
    (t.datasource = none → (mkDescriptor p t).datasource = some "Unknown") ∧
    (t.rawSql = none → (mkDescriptor p t).rawSql = some "") ∧
    (t.refId = none → (mkDescriptor p t).refId = some "") ∧
    (t.format = none → (mkDescriptor p t).format = some "") ∧
    (mkDescriptor p t).title = some (p.title.getD "") ∧
    (mkDescriptor p t).description = some (p.description.getD "") := by
  refine ⟨?_, ?_, ?_, ?_, ?_, rfl, rfl⟩
  · rw [extractTargets_eq_extractAll]
    exact mem_extractAll panels p ts t ht hmem hp
  · intro h
    simp [mkDescriptor, h]
  · intro h
    simp [mkDescriptor, h]
  · intro h
    simp [mkDescriptor, h]
  · intro h
    simp [mkDescriptor, h]

/-- Witness for C6 on a panel with an all-defaulted target: every
descriptor field takes its documented default. -/
theorem claim_c6_witness :
    mkDescriptor { targets := some [{ }], description := some "d" } { } ∈
      extractTargets [{ targets := some [{ }], description := some "d" }] ∧
    (mkDescriptor { targets := some [{ }], description := some "d" } { }).datasource =
      some "Unknown" ∧
    (mkDescriptor { targets := some [{ }], description := some "d" } { }).rawSql =
      some "" := by
  have h := claim_c6 [{ targets := some [{ }], description := some "d" }]
    { targets := some [{ }], description := some "d" } [{ }] { }
    (by simp) rfl (by simp)
  exact ⟨h.1, h.2.1 rfl, h.2.2.1 rfl⟩

/-! ### Claim theorems: Query Executor request -/

/-- Claim C5: queryDataSource issues one request with a single target whose
refId defaults to A, rawSql to the empty string and format to table when
not provided (provided values pass through), a range from one hour before
now to now, interval 60000 ms, 500 max data points, empty scoped variables
and browser timezone. -/
theorem claim_c5 (target : Target) (now : Nat) :
    (∃ rt, (buildQueryRequest target now).targets = [rt] ∧
      (target.refId = none → rt.refId = "A") ∧
      (∀ s, target.refId = some s → rt.refId = s) ∧
      (target.rawSql = none → rt.rawSql = "") ∧
      (∀ s, target.rawSql = some s → rt.rawSql = s) ∧
      (target.format = none → rt.format = "table") ∧
      (∀ s, target.format = some s → rt.format = s)) ∧
    (buildQueryRequest target now).range.fromTime = now - 3600 * 1000 ∧
    (buildQueryRequest target now).range.toTime = now ∧
    (buildQueryRequest target now).intervalMs = 60000 ∧
    (buildQueryRequest target now).maxDataPoints = 500 ∧
    (buildQueryRequest target now).scopedVars = [] ∧
    (buildQueryRequest target now).timezone = "browser" := by
  refine ⟨⟨⟨target.refId.getD "A", target.rawSql.getD "",
    target.format.getD "table"⟩, rfl, ?_, ?_, ?_, ?_, ?_, ?_⟩,
    rfl, rfl, rfl, rfl, rfl, rfl⟩
  · intro h
    rw [h]
    rfl
  · intro s h
    rw [h]
    rfl
  · intro h
    rw [h]
    rfl
  · intro s h
    rw [h]
    rfl
  · intro h
    rw [h]
    rfl
  · intro s h
    rw [h]
    rfl

/-- Witness for C5 at the all-defaulted target and a concrete clock: the
single target takes the defaults and the fixed request fields hold. -/
theorem claim_c5_witness :
    ((buildQueryRequest { } 7200000).targets.map ReqTarget.refId) = ["A"] ∧
    ((buildQueryRequest { } 7200000).targets.map ReqTarget.format) = ["table"] ∧
    (buildQueryRequest { } 7200000).range.fromTime = 3600000 ∧
    (buildQueryRequest { } 7200000).timezone = "browser" := by
  obtain ⟨⟨rt, hrt, h1, h2, h3, h4, h5, h6⟩, hfrom, hto, hint, hmax, hsv, htz⟩ :=
    claim_c5 { } 7200000
  refine ⟨?_, ?_, ?_, htz⟩
  · rw [hrt, List.map_singleton, h1 rfl]
  · rw [hrt, List.map_singleton, h5 rfl]
  · rw [hfrom]

/-! ### Helper lemmas for the controller claims -/

/-- fetchDashboard always resolves with an array: every rejection on the
way is caught and mapped to the empty list. -/
theorem fetchDashboard_ok (uid : Option String) (br : Except Unit PanelsValue) :
    ∃ ts, fetchDashboard uid br = Except.ok ts := by
  by_cases hu : jsTruthyStr uid = false
  · exact ⟨[], by simp [fetchDashboard, catchE, hu]⟩
  · cases br with
    | error e => exact ⟨[], by simp [fetchDashboard, catchE, hu]⟩
    | ok pv => exact ⟨convertDashboardData pv, by simp [fetchDashboard, catchE, hu]⟩

/-- A submit on an empty transcript whose assembly resolves completes with
the two-message transcript and dispatches it. -/
theorem submitQuestion_fresh (st : PanelState) (e : SubmitEnv)
    (preamble : String) (dd : List Target) (pd : List PanelData)
    (hnil : st.chat = [])
    (hfd : fetchDashboard e.dashboardUID e.backendResult = Except.ok dd)
    (hasm : assembleNewPanelData dd e.ds = AsmResult.ok pd) :
    submitQuestion st e preamble = SubmitResult.completed
      { inputValue := "",
        chat := [systemMessage preamble pd, userMessage st.inputValue] }
      [systemMessage preamble pd, userMessage st.inputValue] := by
  simp [submitQuestion, hfd, jsFalsyArray, hnil, hasm]

/-- A submit on a non-empty transcript completes by appending one user
message and dispatching the whole transcript. -/
theorem submitQuestion_active (st : PanelState) (e : SubmitEnv)
    (preamble : String) (hne : st.chat ≠ []) (dd : List Target)
    (hfd : fetchDashboard e.dashboardUID e.backendResult = Except.ok dd) :
    submitQuestion st e preamble = SubmitResult.completed
      { inputValue := "", chat := st.chat ++ [userMessage st.inputValue] }
      (st.chat ++ [userMessage st.inputValue]) := by
  have hc : ¬st.chat.length = 0 := fun h => hne (List.length_eq_zero.mp h)
  simp [submitQuestion, hfd, jsFalsyArray, hc]

/-! ### Claim theorems: Context Assembler failure tolerance (C1) -/

/-- Extractor-shaped descriptor for a first demo panel. -/
def c1tA : Target :=
  ⟨some "Unknown", some "SELECT 1", some "", some "", some "A", some ""⟩

/-- Extractor-shaped descriptor for a second demo panel. -/
def c1tB : Target :=
  ⟨some "Unknown", some "SELECT 2", some "", some "", some "B", some ""⟩

/-- Environment in which query 0 succeeds with a one-column two-row frame
and every later query signals a stream error. -/
def c1ds : Nat → DSOutcome := fun i =>
  if i = 0 then
    DSOutcome.streamNext (some [some ⟨some (cleanFields [("c", [1, 2])])⟩])
  else DSOutcome.streamError

/-- Environment in which query 0 succeeds with the same frame and every
later query fails during datasource resolution (a caught failure). -/
def c1dsRes : Nat → DSOutcome := fun i =>
  if i = 0 then
    DSOutcome.streamNext (some [some ⟨some (cleanFields [("c", [1, 2])])⟩])
  else DSOutcome.resolveFail

/-- Counterexample to claim C1: with N = 2 filtered descriptors, run 0
succeeds with two rows and run 1 fails with a stream error; the rejection
is not caught, Promise.all rejects, and the whole assembly aborts instead
of producing a context with the N-1 successful panel results. -/
theorem claim_c1_counterexample :
    queryDataSource c1tA (c1ds 0) =
      QDSResult.resolved [[("c", some 1)], [("c", some 2)]] ∧
    queryDataSource c1tB (c1ds 1) = QDSResult.rejected ∧
    assembleNewPanelData [c1tA, c1tB] c1ds = AsmResult.rejected := by
  decide

/-- Claim C1 as amended: if any executor run among the filtered
descriptors rejects (a stream error), the whole assembly rejects and no
context is produced; if no run rejects or hangs, the assembly resolves
with one panel entry per filtered descriptor in order, a resolved run
contributing its rows and a caught failure contributing a null result
rather than an empty row sequence. -/
theorem claim_c1_amended (targets : List Target) (ds : Nat → DSOutcome) :
    (QDSResult.rejected ∈ runQueries ds (filteredDescriptors targets) 0 →
      assembleNewPanelData targets ds = AsmResult.rejected) ∧
    ((∀ r ∈ runQueries ds (filteredDescriptors targets) 0,
        isRejectedQ r = false ∧ isHangedQ r = false) →
      assembleNewPanelData targets ds =
        AsmResult.ok (List.zipWith toPanelData (filteredDescriptors targets)
          (runQueries ds (filteredDescriptors targets) 0)) ∧
      (List.zipWith toPanelData (filteredDescriptors targets)
          (runQueries ds (filteredDescriptors targets) 0)).length =
        (filteredDescriptors targets).length) ∧
    (∀ t rows, (toPanelData t (QDSResult.resolved rows)).result = some rows) ∧
    (∀ t, (toPanelData t QDSResult.undef).result = none) := by
  refine ⟨?_, ?_, fun t rows => rfl, fun t => rfl⟩
  · intro hmem
    have hany : (runQueries ds (filteredDescriptors targets) 0).any isRejectedQ = true :=
      List.any_eq_true.mpr ⟨QDSResult.rejected, hmem, rfl⟩
    unfold assembleNewPanelData
    rw [hany]
    rfl
  · intro hall
    have hr : (runQueries ds (filteredDescriptors targets) 0).any isRejectedQ = false := by
      rw [List.any_eq_false]
      intro r hmem
      simp [(hall r hmem).1]
    have hh : (runQueries ds (filteredDescriptors targets) 0).any isHangedQ = false := by
      rw [List.any_eq_false]
      intro r hmem
      simp [(hall r hmem).2]
    constructor
    · unfold assembleNewPanelData
      rw [hr, hh]
      rfl
    · rw [List.length_zipWith, runQueries_length, Nat.min_self]

/-- Witness for the amended C1: with one successful run and one caught
resolution failure, the assembly resolves with both panels, the first
carrying its rows and the second a null result. -/
theorem claim_c1_witness :
    assembleNewPanelData [c1tA, c1tB] c1dsRes =
      AsmResult.ok
        [{ title := some "A", description := some "",
           result := some [[("c", some 1)], [("c", some 2)]] },
         { title := some "B", description := some "", result := none }] := by
  have h := ((claim_c1_amended [c1tA, c1tB] c1dsRes).2.1 (by decide)).1
  rw [h]
  decide

/-! ### Claim theorems: Conversation Controller transcript shape (C2) -/

/-- Environment whose dashboard yields one descriptor with a non-empty raw
query and whose only query run signals a stream error. -/
def streamErrEnv : SubmitEnv where
  dashboardUID := some "uid"
  backendResult := Except.ok (PanelsValue.arr
    [{ targets := some [{ rawSql := some "SELECT 1" }], title := some "A" }])
  ds := fun _ => DSOutcome.streamError

/-- Environment with no dashboard UID: fetchDashboard short-circuits to
the empty list and the assembly trivially resolves. -/
def emptyEnv : SubmitEnv where
  dashboardUID := none
  backendResult := Except.error ()
  ds := fun _ => DSOutcome.streamError

/-- Counterexample to claim C2: a submit with input X on the empty
transcript aborts (the stream error rejects the uncaught Promise.all), so
the transcript is not set to the two messages the claim requires. -/
theorem claim_c2_counterexample :
    submitQuestion ⟨"X", []⟩ streamErrEnv "preamble" = SubmitResult.aborted := by
  decide

/-- Claim C2 as amended: provided the context assembly resolves, a submit
on the empty transcript sets it to exactly the synthesized system message
(whose content is the preamble, a fixed connective and the serialized
dashboard context) followed by the user message with the submitted input;
a submit on a non-empty transcript appends exactly one user message and
leaves element 0 untouched, unconditionally. -/
theorem claim_c2_amended (st : PanelState) (e : SubmitEnv) (preamble : String) :
    (∀ dd pd, st.chat = [] →
      fetchDashboard e.dashboardUID e.backendResult = Except.ok dd →
      assembleNewPanelData dd e.ds = AsmResult.ok pd →
      submitQuestion st e preamble = SubmitResult.completed
        { inputValue := "",
          chat := [systemMessage preamble pd, userMessage st.inputValue] }
        [systemMessage preamble pd, userMessage st.inputValue]) ∧
    (st.chat ≠ [] →
      submitQuestion st e preamble = SubmitResult.completed
        { inputValue := "", chat := st.chat ++ [userMessage st.inputValue] }
        (st.chat ++ [userMessage st.inputValue]) ∧
      (st.chat ++ [userMessage st.inputValue]).head? = st.chat.head? ∧
      (st.chat ++ [userMessage st.inputValue]).length = st.chat.length + 1) ∧
    (∀ pd, (systemMessage preamble pd).content =
        preamble ++ " This is the data on the dashboard: " ++
          serializePanelData pd ++ "." ∧
      (systemMessage preamble pd).role = "system" ∧
      (userMessage st.inputValue).content = st.inputValue ∧
      (userMessage st.inputValue).role = "user") := by
  refine ⟨?_, ?_, fun pd => ⟨rfl, rfl, rfl, rfl⟩⟩
  · intro dd pd hnil hfd hasm
    exact submitQuestion_fresh st e preamble dd pd hnil hfd hasm
  · intro hne
    obtain ⟨dd, hfd⟩ := fetchDashboard_ok e.dashboardUID e.backendResult
    refine ⟨submitQuestion_active st e preamble hne dd hfd, ?_, by simp⟩
    cases hc : st.chat with
    | nil => exact absurd hc hne
    | cons a t => rfl

/-- Witness for the amended C2: a first submit with input X in the
UID-less environment completes with exactly the system and user messages. -/
theorem claim_c2_witness :
    submitQuestion ⟨"X", []⟩ emptyEnv "pre" = SubmitResult.completed
      { inputValue := "", chat := [systemMessage "pre" [], userMessage "X"] }
      [systemMessage "pre" [], userMessage "X"] :=
  (claim_c2_amended ⟨"X", []⟩ emptyEnv "pre").1 [] [] rfl rfl (by decide)

/-! ### Claim theorems: input clearing and completion failure (C7) -/

/-- Counterexample to claim C7: a submit that aborts on the uncaught
Promise.all rejection never reaches the input-clearing step, so the input
buffer is not cleared on every submit. -/
theorem claim_c7_counterexample :
    submitQuestion ⟨"Y", []⟩ streamErrEnv "preamble" = SubmitResult.aborted := by
  decide

/-- Claim C7 as amended: every submit that completes clears the input
buffer regardless of the later completion-service outcome, its transcript
ends with the just-submitted user message, a rejected completion call
leaves the transcript unchanged (no assistant message), and a successful
one appends exactly the returned message. -/
theorem claim_c7_amended (st : PanelState) (e : SubmitEnv) (preamble : String)
    (st' : PanelState) (req : List Message)
    (h : submitQuestion st e preamble = SubmitResult.completed st' req) :
    st'.inputValue = "" ∧
    st'.chat ≠ [] ∧
    st'.chat.getLast? = some (userMessage st.inputValue) ∧
    fetchGroqDataEffect st'.chat GroqOutcome.reject = st'.chat ∧
    (∀ reply, fetchGroqDataEffect st'.chat (GroqOutcome.ok reply) =
      st'.chat ++ [reply]) := by
  obtain ⟨hreq, hinput, hcase⟩ := submitQuestion_completed st e preamble st' req h
  refine ⟨hinput, ?_, ?_, rfl, fun reply => rfl⟩
  · rcases hcase with ⟨-, pd, -, hchat⟩ | ⟨-, hchat⟩ <;> rw [hchat] <;> simp
  · rcases hcase with ⟨-, pd, -, hchat⟩ | ⟨-, hchat⟩
    · rw [hchat]
      rfl
    · rw [hchat]
      simp

/-- Witness for the amended C7: the completed first submit in the UID-less
environment ends with the user message and a rejected completion call
leaves its transcript unchanged. -/
theorem claim_c7_witness :
    [systemMessage "p" [], userMessage "Z"].getLast? = some (userMessage "Z") ∧
    fetchGroqDataEffect [systemMessage "p" [], userMessage "Z"]
      GroqOutcome.reject = [systemMessage "p" [], userMessage "Z"] := by
  have h := claim_c7_amended ⟨"Z", []⟩ emptyEnv "p"
    { inputValue := "", chat := [systemMessage "p" [], userMessage "Z"] }
    [systemMessage "p" [], userMessage "Z"] (by decide)
  exact ⟨h.2.2.1, h.2.2.2.1⟩

/-! ### Claim theorems: fetchDashboard total resolution (C9) -/

/-- Claim C9: for every dashboard-metadata outcome (missing UID, rejected
request, malformed panel data) fetchDashboard resolves with an array and
never rejects, the resolved array is never falsy so the early-return guard
is never taken, and a submit with no gathered panel data still completes,
building messages and dispatching a completion request. -/
theorem claim_c9 (uid : Option String) (br : Except Unit PanelsValue) :
    (∃ ts, fetchDashboard uid br = Except.ok ts) ∧
    (∀ ts, fetchDashboard uid br = Except.ok ts → jsFalsyArray ts = false) ∧
    (jsTruthyStr uid = false → fetchDashboard uid br = Except.ok []) ∧
    (br = Except.error () → fetchDashboard uid br = Except.ok []) ∧
    (fetchDashboard uid (Except.ok (PanelsValue.str ParseResult.fail)) =
        Except.ok [] ∧
      fetchDashboard uid (Except.ok PanelsValue.other) = Except.ok []) ∧
    (∀ (st : PanelState) (e : SubmitEnv) (preamble : String),
      fetchDashboard e.dashboardUID e.backendResult = Except.ok [] →
      ∃ st' req, submitQuestion st e preamble = SubmitResult.completed st' req) := by
  refine ⟨fetchDashboard_ok uid br, fun ts _ => rfl, ?_, ?_, ⟨?_, ?_⟩, ?_⟩
  · intro hu
    simp [fetchDashboard, catchE, hu]
  · intro hbr
    subst hbr
    by_cases hu : jsTruthyStr uid = false <;> simp [fetchDashboard, catchE, hu]
  · by_cases hu : jsTruthyStr uid = false <;>
      simp [fetchDashboard, catchE, hu, convertDashboardData]
  · by_cases hu : jsTruthyStr uid = false <;>
      simp [fetchDashboard, catchE, hu, convertDashboardData]
  · intro st e preamble hfd
    by_cases hc : st.chat = []
    · exact ⟨_, _, submitQuestion_fresh st e preamble [] [] hc hfd rfl⟩
    · exact ⟨_, _, submitQuestion_active st e preamble hc [] hfd⟩

/-- Witness for C9: with no dashboard UID and a rejected metadata request,
fetchDashboard still resolves with the empty array, which is not falsy. -/
theorem claim_c9_witness :
    fetchDashboard none (Except.error ()) = Except.ok [] ∧
    jsFalsyArray [] = false := by
  have h := claim_c9 none (Except.error ())
  exact ⟨h.2.2.1 rfl, h.2.1 [] (h.2.2.1 rfl)⟩

/-! ### Claim theorems: system message invariant (C8) -/

/-- On every reachable non-empty transcript, element 0 is a synthesized
system message. -/
theorem reachable_head_system (preamble : String) (chat : List Message)
    (h : Reachable preamble chat) :
    chat ≠ [] → ∃ pd, chat.head? = some (systemMessage preamble pd) := by
  induction h with
  | init => intro hne; exact absurd rfl hne
  | submit st e st' req hr hcomp ih =>
    intro _
    obtain ⟨-, -, hcase⟩ := submitQuestion_completed st e preamble st' req hcomp
    rcases hcase with ⟨hnil, pd, -, hchat⟩ | ⟨hne2, hchat⟩
    · exact ⟨pd, by rw [hchat]; rfl⟩
    · obtain ⟨pd, hpd⟩ := ih hne2
      refine ⟨pd, ?_⟩
      rw [hchat]
      cases hc : st.chat with
      | nil => exact absurd hc hne2
      | cons a t =>
        rw [hc] at hpd
        simpa using hpd
  | groqReply chat2 reply hr hne2 ih =>
    intro _
    obtain ⟨pd, hpd⟩ := ih hne2
    refine ⟨pd, ?_⟩
    show (chat2 ++ [reply]).head? = _
    cases hc : chat2 with
    | nil => exact absurd hc hne2
    | cons a t =>
      rw [hc] at hpd
      simpa using hpd

/-- Claim C8: once the transcript is non-empty, its element 0 is the
synthesized system message, every transcript operation preserves this,
element 0 is excluded from the rendered list (which is the transcript
without its head) and included in every request dispatched to the
completion service (the dispatched list is the full new transcript, whose
head is the preserved element 0). -/
theorem claim_c8 (preamble : String) (chat : List Message)
    (hreach : Reachable preamble chat) (hne : chat ≠ []) :
    (∃ pd, chat.head? = some (systemMessage preamble pd)) ∧
    renderedChat chat = chat.drop 1 ∧
    (∀ (st : PanelState) (e : SubmitEnv) (st' : PanelState)
      (req : List Message),
      st.chat = chat →
      submitQuestion st e preamble = SubmitResult.completed st' req →
      req = st'.chat ∧ st'.chat.head? = chat.head?) := by
  refine ⟨reachable_head_system preamble chat hreach hne, rfl, ?_⟩
  intro st e st' req hst h
  obtain ⟨hreq, -, hcase⟩ := submitQuestion_completed st e preamble st' req h
  rcases hcase with ⟨hnil, -⟩ | ⟨-, hchat⟩
  · exact absurd (hst.symm.trans hnil) hne
  · refine ⟨hreq, ?_⟩
    rw [hchat, hst]
    cases chat with
    | nil => exact absurd rfl hne
    | cons a t => rfl

/-- Witness for C8: the transcript reached by one completing submit has a
system-role element 0 and renders without it. -/
theorem claim_c8_witness :
    ([systemMessage "p" [], userMessage "x"].head?.map Message.role) =
      some "system" ∧
    renderedChat [systemMessage "p" [], userMessage "x"] = [userMessage "x"] := by
  have hs : submitQuestion ⟨"x", []⟩ emptyEnv "p" = SubmitResult.completed
      { inputValue := "", chat := [systemMessage "p" [], userMessage "x"] }
      [systemMessage "p" [], userMessage "x"] := by decide
  have hreach : Reachable "p" [systemMessage "p" [], userMessage "x"] :=
    Reachable.submit ⟨"x", []⟩ emptyEnv
      { inputValue := "", chat := [systemMessage "p" [], userMessage "x"] }
      [systemMessage "p" [], userMessage "x"] Reachable.init hs
  obtain ⟨⟨pd, hpd⟩, hr, -⟩ :=
    claim_c8 "p" [systemMessage "p" [], userMessage "x"] hreach (by simp)
  constructor
  · rw [hpd]
    rfl
  · rw [hr]
    rfl

end BsureChat
